import Mathlib

/-!
Verification of the timehop/jimmy redis client library: a shallow embedding of
the connection / pipeline / transaction subsystem (src/redis/connection.go,
src/redis/pipelined.go, src/redis/pool.go, src/redis/redis.go and the variant
files) together with proofs of the specification's testable properties.

Go errors are modelled by their string value (redigo.Error is a string type and
the code compares errors with `==`).  The wire transport (a redigo.Conn) is
modelled as a deterministic state machine: commands handed to the driver are
queued in FIFO order and the server's reply to the n-th processed command is
given by an oracle function.
-/

namespace Jimmy

/-- Go error values, modelled by their message string. -/
abbrev Err := String

/-- redigoErrNoAuth from src/redis/redis.go. -/
def redigoErrNoAuth : Err := "NOAUTH Authentication required."

/-- redigoErrSentAuth from src/redis/redis.go. -/
def redigoErrSentAuth : Err := "ERR Client sent AUTH, but no password is set"

/-- redigo.ErrNil, re-exported as ErrNil in src/redis/redis.go. -/
def errNil : Err := "redigo: nil returned"

/-- The error message the redigo pool produces on exhaustion, matched by
string in src/redis/pool.go GetConnection. -/
def redigoExhaustedMsg : Err := "redigo: connection pool exhausted"

/-- Model-level error for a Receive with no outstanding command: the real call
would block forever, which has no counterpart in a functional model.  None of
the verified scenarios reach it. -/
def errBlocked : Err := "model: receive would block"

/-- A redis reply, preserving the raw type distinctions (status and bulk
strings are both carried as strings, as redigo hands both to the caller). -/
inductive Reply where
  | str (s : String)
  | int (n : Int)
  | arr (rs : List Reply)
  | nil

/-- One argument of a command.  Scores of type float64 are modelled as
rationals; the client never computes with them. -/
inductive Arg where
  | str (s : String)
  | int (n : Int)
  | num (q : ℚ)
deriving DecidableEq

/-- A command handed to the driver: name plus flattened argument list
(redigo.Args.AddFlat flattens slices). -/
structure Cmd where
  name : String
  args : List Arg
deriving DecidableEq

/-- The state of one underlying redigo.Conn, as consumed by this library:
Send queues a command, Flush transmits, Receive reads one reply in FIFO
order.  `sendFail` is the local-encoding-failure oracle of Send, `srvReply n
cmd` is the server's reply to the n-th command processed on this connection,
`pending` are the commands whose replies have not been read yet, `ncvd`
counts the replies consumed so far, and `log` records every command
successfully handed to the driver, in order. -/
structure Conn where
  sendFail : Cmd → Option Err
  flushFail : Option Err
  srvReply : Nat → Cmd → Except Err Reply
  pending : List Cmd
  ncvd : Nat
  log : List Cmd

/-- redigo Conn.Send: queue the command; fails only on local encoding. -/
def Conn.send (c : Conn) (cmd : Cmd) : Option Err × Conn :=
  match c.sendFail cmd with
  | some e => (some e, c)
  | none => (none, { c with pending := c.pending ++ [cmd], log := c.log ++ [cmd] })

/-- redigo Conn.Flush: transmit queued commands (a no-op on the model state;
the write-error oracle is `flushFail`). -/
def Conn.flush (c : Conn) : Option Err × Conn :=
  (c.flushFail, c)

/-- redigo Conn.Receive: read the reply to the oldest outstanding command. -/
def Conn.receive (c : Conn) : Except Err Reply × Conn :=
  match c.pending with
  | [] => (.error errBlocked, c)
  | cmd :: rest =>
    (c.srvReply c.ncvd cmd, { c with pending := rest, ncvd := c.ncvd + 1 })

/-- The replies the server will give, in order, to a list of commands whose
first element is processed as command number `n`. -/
def oracleReplies (f : Nat → Cmd → Except Err Reply) : Nat → List Cmd → List (Except Err Reply)
  | _, [] => []
  | n, cmd :: rest => f n cmd :: oracleReplies f (n + 1) rest

/-- The replies that reading `c.pending` in FIFO order would produce. -/
def Conn.pendingReplies (c : Conn) : List (Except Err Reply) :=
  oracleReplies c.srvReply c.ncvd c.pending

/-- The batch executor of src/redis/pipelined.go and src/unnamed/part_002:
a send-only view over a connection with a counter of outstanding replies.
The underlying Conn is threaded separately since the model is pure. -/
structure sendOnlyConnection where
  counter : Nat

/-- The count helper of sendOnlyConnection: pass a send error through,
increment the counter on success. -/
def sendOnlyConnection.count (s : sendOnlyConnection) (r : Option Err × Conn) :
    Option Err × sendOnlyConnection × Conn :=
  match r with
  | (some e, c) => (some e, s, c)
  | (none, c) => (none, { s with counter := s.counter + 1 }, c)

/-- The receive loop inside sendOnlyConnection.receiveAll: read `n` replies,
stopping and returning immediately on the first receive error (the replies
already read are discarded). -/
def recvLoop : Nat → Conn → Except Err (List Reply) × Conn
  | 0, c => (.ok [], c)
  | n + 1, c =>
    match c.receive with
    | (.error e, c') => (.error e, c')
    | (.ok r, c') =>
      match recvLoop n c' with
      | (.error e, c'') => (.error e, c'')
      | (.ok rs, c'') => (.ok (r :: rs), c'')

/-- sendOnlyConnection.receiveAll: nothing pending returns immediately with an
absent result; otherwise read exactly `counter` replies in order and reset the
counter to zero on success (on error the counter is left untouched). -/
def sendOnlyConnection.receiveAll (s : sendOnlyConnection) (c : Conn) :
    Except Err (List Reply) × sendOnlyConnection × Conn :=
  if s.counter = 0 then
    (.ok [], s, c)
  else
    match recvLoop s.counter c with
    | (.error e, c') => (.error e, s, c')
    | (.ok rs, c') => (.ok rs, { s with counter := 0 }, c')

/-- The local validation error of the batch HMGet (src/unnamed/part_002,
message preserved verbatim, typo included). -/
def errHMGetNoFields : Err := "redis: at least once field is required"

/-- mapToSlice from src/redis/convert.go: flatten a key/value map into an
alternating slice.  The Go map's nondeterministic iteration order is modelled
by taking the pairs in the order of the association list. -/
def mapToSlice (m : List (String × Arg)) : List Arg :=
  m.flatMap fun kv => [.str kv.1, kv.2]

/-- One invocation of a batch command method of sendOnlyConnection
(src/unnamed/part_002), with its arguments. -/
inductive BatchOp where
  | del (keys : List String)
  | existsOp (key : String)
  | expire (key : String) (seconds : Int)
  | rename (key newKey : String)
  | ttl (key : String)
  | renameNX (key newKey : String)
  | get (key : String)
  | set (key value : String)
  | setEx (key value : String) (expire : Int)
  | setNX (key value : String)
  | incr (key : String)
  | hGet (key field : String)
  | hGetAll (key : String)
  | hIncrBy (key field : String) (value : Int)
  | hSet (key field value : String)
  | hMGet (key : String) (fields : List String)
  | hMSet (key : String) (args : List (String × Arg))
  | hDel (key field : String)
  | lPop (key : String)
  | lPush (key : String) (values : List String)
  | lTrim (key : String) (startIndex endIndex : Int)
  | lRange (key : String) (startIndex endIndex : Int)
  | rPop (key : String)
  | rPush (key : String) (values : List String)
  | sAdd (key member : String) (members : List String)
  | sRem (key member : String) (members : List String)
  | sPop (key : String)
  | sMembers (key : String)
  | sMove (source destination member : String)
  | sRandMember (key : String) (count : Int)
  | sDiff (key : String) (keys : List String)
  | zAdd (key : String) (args : List Arg)
  | zCard (key : String)
  | zRange (key : String) (start stop : Int)
  | zRangeWithScores (key : String) (start stop : Int)
  | zRangeByScore (key min max : String)
  | zRangeByScoreWithScores (key min max : String)
  | zRangeByScoreWithLimit (key min max : String) (offset count : Int)
  | zRangeByScoreWithScoresWithLimit (key min max : String) (offset count : Int)
  | zRevRange (key : String) (start stop : Int)
  | zRevRangeWithScores (key : String) (start stop : Int)
  | zRevRangeByScore (key min max : String)
  | zRevRangeByScoreWithScores (key min max : String)
  | zRevRangeByScoreWithLimit (key min max : String) (offset count : Int)
  | zRevRangeByScoreWithScoresWithLimit (key min max : String) (offset count : Int)
  | zRank (key member : String)
  | zRem (key : String) (members : List String)
  | zRemRangeByRank (key : String) (start stop : Int)
  | zScore (key member : String)
  | zIncrBy (key : String) (score : ℚ) (value : String)
  | pfAdd (key : String) (values : List String)
  | pfCount (key : String)
  | pfMerge (mergedKey : String) (keysToMerge : List String)

/-- Dispatch table for the batch command methods of sendOnlyConnection:
each arm is the body of the corresponding method in src/unnamed/part_002
(`s.count(s.c.Send(...))`, with the local validation checks of HMGet, ZAdd,
ZRem and ZScore reproduced verbatim). -/
def sendOnlyConnection.runBatch (s : sendOnlyConnection) (c : Conn) :
    BatchOp → Option Err × sendOnlyConnection × Conn
  | .del keys => s.count (c.send ⟨"DEL", keys.map .str⟩)
  | .existsOp key => s.count (c.send ⟨"EXISTS", [.str key]⟩)
  | .expire key seconds => s.count (c.send ⟨"EXPIRE", [.str key, .int seconds]⟩)
  | .rename key newKey => s.count (c.send ⟨"RENAME", [.str key, .str newKey]⟩)
  | .ttl key => s.count (c.send ⟨"TTL", [.str key]⟩)
  | .renameNX key newKey => s.count (c.send ⟨"RENAMENX", [.str key, .str newKey]⟩)
  | .get key => s.count (c.send ⟨"GET", [.str key]⟩)
  | .set key value => s.count (c.send ⟨"SET", [.str key, .str value]⟩)
  | .setEx key value expireSeconds => s.count (c.send ⟨"SETEX", [.str key, .int expireSeconds, .str value]⟩)
  | .setNX key value => s.count (c.send ⟨"SETNX", [.str key, .str value]⟩)
  | .incr key => s.count (c.send ⟨"INCR", [.str key]⟩)
  | .hGet key field => s.count (c.send ⟨"HGET", [.str key, .str field]⟩)
  | .hGetAll key => s.count (c.send ⟨"HGETALL", [.str key]⟩)
  | .hIncrBy key field value => s.count (c.send ⟨"HINCRBY", [.str key, .str field, .int value]⟩)
  | .hSet key field value => s.count (c.send ⟨"HSET", [.str key, .str field, .str value]⟩)
  | .hMGet key fields =>
    if fields = [] then (some errHMGetNoFields, s, c)
    else s.count (c.send ⟨"HMGET", .str key :: fields.map .str⟩)
  | .hMSet key args => s.count (c.send ⟨"HMSET", .str key :: mapToSlice args⟩)
  | .hDel key field => s.count (c.send ⟨"HDEL", [.str key, .str field]⟩)
  | .lPop key => s.count (c.send ⟨"LPOP", [.str key]⟩)
  | .lPush key values => s.count (c.send ⟨"LPUSH", .str key :: values.map .str⟩)
  | .lTrim key startIndex endIndex =>
    s.count (c.send ⟨"LTRIM", [.str key, .int startIndex, .int endIndex]⟩)
  | .lRange key startIndex endIndex =>
    s.count (c.send ⟨"LRANGE", [.str key, .int startIndex, .int endIndex]⟩)
  | .rPop key => s.count (c.send ⟨"RPOP", [.str key]⟩)
  | .rPush key values => s.count (c.send ⟨"RPUSH", .str key :: values.map .str⟩)
  | .sAdd key member members =>
    s.count (c.send ⟨"SADD", .str key :: .str member :: members.map .str⟩)
  | .sRem key member members =>
    s.count (c.send ⟨"SREM", .str key :: .str member :: members.map .str⟩)
  | .sPop key => s.count (c.send ⟨"SPOP", [.str key]⟩)
  | .sMembers key => s.count (c.send ⟨"SMEMBERS", [.str key]⟩)
  | .sMove source destination member =>
    s.count (c.send ⟨"SMOVE", [.str source, .str destination, .str member]⟩)
  | .sRandMember key count => s.count (c.send ⟨"SRANDMEMBER", [.str key, .int count]⟩)
  | .sDiff key keys => s.count (c.send ⟨"SDIFF", .str key :: keys.map .str⟩)
  | .zAdd key args =>
    if args = [] then (none, s, c)
    else s.count (c.send ⟨"ZADD", .str key :: args⟩)
  | .zCard key => s.count (c.send ⟨"ZCARD", [.str key]⟩)
  | .zRange key start stop => s.count (c.send ⟨"ZRANGE", [.str key, .int start, .int stop]⟩)
  | .zRangeWithScores key start stop =>
    s.count (c.send ⟨"ZRANGE", [.str key, .int start, .int stop, .str "WITHSCORES"]⟩)
  | .zRangeByScore key min max =>
    s.count (c.send ⟨"ZRANGEBYSCORE", [.str key, .str min, .str max]⟩)
  | .zRangeByScoreWithScores key min max =>
    s.count (c.send ⟨"ZRANGEBYSCORE", [.str key, .str min, .str max, .str "WITHSCORES"]⟩)
  | .zRangeByScoreWithLimit key min max offset count =>
    s.count (c.send ⟨"ZRANGEBYSCORE", [.str key, .str min, .str max, .str "LIMIT", .int offset, .int count]⟩)
  | .zRangeByScoreWithScoresWithLimit key min max offset count =>
    s.count (c.send ⟨"ZRANGEBYSCORE", [.str key, .str min, .str max, .str "WITHSCORES", .str "LIMIT", .int offset, .int count]⟩)
  | .zRevRange key start stop =>
    s.count (c.send ⟨"ZREVRANGE", [.str key, .int start, .int stop]⟩)
  | .zRevRangeWithScores key start stop =>
    s.count (c.send ⟨"ZREVRANGE", [.str key, .int start, .int stop, .str "WITHSCORES"]⟩)
  | .zRevRangeByScore key min max =>
    s.count (c.send ⟨"ZREVRANGEBYSCORE", [.str key, .str min, .str max]⟩)
  | .zRevRangeByScoreWithScores key min max =>
    s.count (c.send ⟨"ZREVRANGEBYSCORE", [.str key, .str min, .str max, .str "WITHSCORES"]⟩)
  | .zRevRangeByScoreWithLimit key min max offset count =>
    s.count (c.send ⟨"ZREVRANGEBYSCORE", [.str key, .str min, .str max, .str "LIMIT", .int offset, .int count]⟩)
  | .zRevRangeByScoreWithScoresWithLimit key min max offset count =>
    s.count (c.send ⟨"ZREVRANGEBYSCORE", [.str key, .str min, .str max, .str "WITHSCORES", .str "LIMIT", .int offset, .int count]⟩)
  | .zRank key member => s.count (c.send ⟨"ZRANK", [.str key, .str member]⟩)
  | .zRem key members =>
    if members = [] then (none, s, c)
    else s.count (c.send ⟨"ZREM", .str key :: members.map .str⟩)
  | .zRemRangeByRank key start stop =>
    s.count (c.send ⟨"ZREMRANGEBYRANK", [.str key, .int start, .int stop]⟩)
  | .zScore key member =>
    if member = "" then (none, s, c)
    else s.count (c.send ⟨"ZSCORE", [.str key, .str member]⟩)
  | .zIncrBy key score value => s.count (c.send ⟨"ZINCRBY", [.str key, .num score, .str value]⟩)
  | .pfAdd key values => s.count (c.send ⟨"PFADD", .str key :: values.map .str⟩)
  | .pfCount key => s.count (c.send ⟨"PFCOUNT", [.str key]⟩)
  | .pfMerge mergedKey keysToMerge =>
    s.count (c.send ⟨"PFMERGE", .str mergedKey :: keysToMerge.map .str⟩)

/-- The command a batch method hands to the driver, if any: `none` exactly for
the calls that return before reaching Send (HMGet with no fields, ZAdd with no
arguments, ZRem with no members, ZScore with an empty member). -/
def BatchOp.cmd? : BatchOp → Option Cmd
  | .del keys => some ⟨"DEL", keys.map .str⟩
  | .existsOp key => some ⟨"EXISTS", [.str key]⟩
  | .expire key seconds => some ⟨"EXPIRE", [.str key, .int seconds]⟩
  | .rename key newKey => some ⟨"RENAME", [.str key, .str newKey]⟩
  | .ttl key => some ⟨"TTL", [.str key]⟩
  | .renameNX key newKey => some ⟨"RENAMENX", [.str key, .str newKey]⟩
  | .get key => some ⟨"GET", [.str key]⟩
  | .set key value => some ⟨"SET", [.str key, .str value]⟩
  | .setEx key value expireSeconds => some ⟨"SETEX", [.str key, .int expireSeconds, .str value]⟩
  | .setNX key value => some ⟨"SETNX", [.str key, .str value]⟩
  | .incr key => some ⟨"INCR", [.str key]⟩
  | .hGet key field => some ⟨"HGET", [.str key, .str field]⟩
  | .hGetAll key => some ⟨"HGETALL", [.str key]⟩
  | .hIncrBy key field value => some ⟨"HINCRBY", [.str key, .str field, .int value]⟩
  | .hSet key field value => some ⟨"HSET", [.str key, .str field, .str value]⟩
  | .hMGet key fields =>
    if fields = [] then none else some ⟨"HMGET", .str key :: fields.map .str⟩
  | .hMSet key args => some ⟨"HMSET", .str key :: mapToSlice args⟩
  | .hDel key field => some ⟨"HDEL", [.str key, .str field]⟩
  | .lPop key => some ⟨"LPOP", [.str key]⟩
  | .lPush key values => some ⟨"LPUSH", .str key :: values.map .str⟩
  | .lTrim key startIndex endIndex => some ⟨"LTRIM", [.str key, .int startIndex, .int endIndex]⟩
  | .lRange key startIndex endIndex => some ⟨"LRANGE", [.str key, .int startIndex, .int endIndex]⟩
  | .rPop key => some ⟨"RPOP", [.str key]⟩
  | .rPush key values => some ⟨"RPUSH", .str key :: values.map .str⟩
  | .sAdd key member members => some ⟨"SADD", .str key :: .str member :: members.map .str⟩
  | .sRem key member members => some ⟨"SREM", .str key :: .str member :: members.map .str⟩
  | .sPop key => some ⟨"SPOP", [.str key]⟩
  | .sMembers key => some ⟨"SMEMBERS", [.str key]⟩
  | .sMove source destination member => some ⟨"SMOVE", [.str source, .str destination, .str member]⟩
  | .sRandMember key count => some ⟨"SRANDMEMBER", [.str key, .int count]⟩
  | .sDiff key keys => some ⟨"SDIFF", .str key :: keys.map .str⟩
  | .zAdd key args => if args = [] then none else some ⟨"ZADD", .str key :: args⟩
  | .zCard key => some ⟨"ZCARD", [.str key]⟩
  | .zRange key start stop => some ⟨"ZRANGE", [.str key, .int start, .int stop]⟩
  | .zRangeWithScores key start stop =>
    some ⟨"ZRANGE", [.str key, .int start, .int stop, .str "WITHSCORES"]⟩
  | .zRangeByScore key min max => some ⟨"ZRANGEBYSCORE", [.str key, .str min, .str max]⟩
  | .zRangeByScoreWithScores key min max =>
    some ⟨"ZRANGEBYSCORE", [.str key, .str min, .str max, .str "WITHSCORES"]⟩
  | .zRangeByScoreWithLimit key min max offset count =>
    some ⟨"ZRANGEBYSCORE", [.str key, .str min, .str max, .str "LIMIT", .int offset, .int count]⟩
  | .zRangeByScoreWithScoresWithLimit key min max offset count =>
    some ⟨"ZRANGEBYSCORE", [.str key, .str min, .str max, .str "WITHSCORES", .str "LIMIT", .int offset, .int count]⟩
  | .zRevRange key start stop => some ⟨"ZREVRANGE", [.str key, .int start, .int stop]⟩
  | .zRevRangeWithScores key start stop =>
    some ⟨"ZREVRANGE", [.str key, .int start, .int stop, .str "WITHSCORES"]⟩
  | .zRevRangeByScore key min max => some ⟨"ZREVRANGEBYSCORE", [.str key, .str min, .str max]⟩
  | .zRevRangeByScoreWithScores key min max =>
    some ⟨"ZREVRANGEBYSCORE", [.str key, .str min, .str max, .str "WITHSCORES"]⟩
  | .zRevRangeByScoreWithLimit key min max offset count =>
    some ⟨"ZREVRANGEBYSCORE", [.str key, .str min, .str max, .str "LIMIT", .int offset, .int count]⟩
  | .zRevRangeByScoreWithScoresWithLimit key min max offset count =>
    some ⟨"ZREVRANGEBYSCORE", [.str key, .str min, .str max, .str "WITHSCORES", .str "LIMIT", .int offset, .int count]⟩
  | .zRank key member => some ⟨"ZRANK", [.str key, .str member]⟩
  | .zRem key members => if members = [] then none else some ⟨"ZREM", .str key :: members.map .str⟩
  | .zRemRangeByRank key start stop =>
    some ⟨"ZREMRANGEBYRANK", [.str key, .int start, .int stop]⟩
  | .zScore key member => if member = "" then none else some ⟨"ZSCORE", [.str key, .str member]⟩
  | .zIncrBy key score value => some ⟨"ZINCRBY", [.str key, .num score, .str value]⟩
  | .pfAdd key values => some ⟨"PFADD", .str key :: values.map .str⟩
  | .pfCount key => some ⟨"PFCOUNT", [.str key]⟩
  | .pfMerge mergedKey keysToMerge => some ⟨"PFMERGE", .str mergedKey :: keysToMerge.map .str⟩

/-- The error a batch method returns without touching the connection: only the
zero-field HMGet validation failure produces one. -/
def BatchOp.localErr : BatchOp → Option Err
  | .hMGet _ fields => if fields = [] then some errHMGetNoFields else none
  | _ => none

/-- Shape of every batch method: either the call never reaches Send (and
returns its local validation result with both states untouched), or it is
exactly `count (send cmd)` for the method's command. -/
theorem runBatch_eq (s : sendOnlyConnection) (c : Conn) (op : BatchOp) :
    s.runBatch c op =
      match op.cmd? with
      | none => (op.localErr, s, c)
      | some cmd => s.count (c.send cmd) := by
  cases op <;>
    simp only [sendOnlyConnection.runBatch, BatchOp.cmd?, BatchOp.localErr] <;>
    split <;> rfl

/-- Run a list of batch calls in order, discarding the per-call results (the
pipelined/transaction callbacks return nothing to the library). -/
def runOps (ops : List BatchOp) (s : sendOnlyConnection) (c : Conn) :
    sendOnlyConnection × Conn :=
  ops.foldl (fun sc op => ((sc.1.runBatch sc.2 op).2.1, (sc.1.runBatch sc.2 op).2.2)) (s, c)

/-- Read `n` replies unconditionally, as redigo's Do does for every command
still pending on the connection (unlike the pipeline drain it does not stop
at an error reply). -/
def rawRecvN : Nat → Conn → List (Except Err Reply) × Conn
  | 0, c => ([], c)
  | n + 1, c =>
    let (r, c') := c.receive
    let (rs, c'') := rawRecvN n c'
    (r :: rs, c'')

/-- The first error among a list of raw replies, if any: redigo's Do keeps
the first error reply it sees as the call's error. -/
def firstErr : List (Except Err Reply) → Option Err
  | [] => none
  | .error e :: _ => some e
  | .ok _ :: rest => firstErr rest

/-- redigo Conn.Do: send the command, flush, then read a reply for every
pending command; the call's value is the reply to the command itself (the
last one read) and its error is the first error observed. -/
def Conn.redigoDo (c : Conn) (cmd : Cmd) : Except Err Reply × Conn :=
  match c.send cmd with
  | (some e, c') => (.error e, c')
  | (none, c') =>
    match c'.flush with
    | (some e, c'') => (.error e, c'')
    | (none, c'') =>
      let (rs, c3) := rawRecvN c''.pending.length c''
      match firstErr rs with
      | some e => (.error e, c3)
      | none =>
        match rs.getLast? with
        | some r => (r, c3)
        | none => (.error errBlocked, c3)

/-- redigo.Values: an array reply converts to its element list, a nil reply
gives ErrNil, anything else is a type error; an error passes through. -/
def redigoValues : Except Err Reply → Except Err (List Reply)
  | .error e => .error e
  | .ok (.arr rs) => .ok rs
  | .ok .nil => .error errNil
  | .ok _ => .error "redigo: unexpected type for Values"

/-- redigo.String: a string reply converts to itself, a nil reply gives
ErrNil, anything else is a type error; an error passes through. -/
def redigoString : Except Err Reply → Except Err String
  | .error e => .error e
  | .ok (.str s) => .ok s
  | .ok .nil => .error errNil
  | .ok _ => .error "redigo: unexpected type for String"

/-- redigo.Int: an integer reply converts to itself, a nil reply gives
ErrNil, anything else is a type error; an error passes through. -/
def redigoInt : Except Err Reply → Except Err Int
  | .error e => .error e
  | .ok (.int n) => .ok n
  | .ok .nil => .error errNil
  | .ok _ => .error "redigo: unexpected type for Int"

/-- The jimmy connection (src/redis/connection.go, richer variant): the
underlying redigo.Conn is threaded separately, so the structure carries only
the credential captured at construction from the connection URL. -/
structure connection where
  password : String

/-- connection.Send: delegate to the driver. -/
def connection.Send (_ : connection) (c : Conn) (cmd : Cmd) : Option Err × Conn :=
  c.send cmd

/-- connection.Do with transparent re-authentication (src/redis/connection.go
lines 347-357): if the reply's error is the NOAUTH error and a credential is
configured, issue AUTH synchronously; on AUTH failure return that failure; on
AUTH success retry the original command exactly once and return its result. -/
def connection.Do (s : connection) (c : Conn) (cmd : Cmd) : Except Err Reply × Conn :=
  match c.redigoDo cmd with
  | (.ok v, c1) => (.ok v, c1)
  | (.error err, c1) =>
    if err = redigoErrNoAuth ∧ s.password ≠ "" then
      match c1.redigoDo ⟨"AUTH", [.str s.password]⟩ with
      | (.error e, c2) => (.error e, c2)
      | (.ok _, c2) => c2.redigoDo cmd
    else (.error err, c1)

/-- connection.Multi: Send("MULTI"). -/
def connection.Multi (s : connection) (c : Conn) : Option Err × Conn :=
  s.Send c ⟨"MULTI", []⟩

/-- connection.Exec: redigo.Values(Do("EXEC")). -/
def connection.Exec (s : connection) (c : Conn) : Except Err (List Reply) × Conn :=
  let (r, c') := s.Do c ⟨"EXEC", []⟩
  (redigoValues r, c')

/-- connection.Transaction: send MULTI, run the callback's commands through a
fresh transaction view of the same connection (its counter is discarded,
never drained), then Exec and return its reply array; a MULTI send error is
returned instead.  The callback is represented by the list of batch calls it
makes, in order. -/
def connection.Transaction (s : connection) (c : Conn) (ops : List BatchOp) :
    Except Err (List Reply) × Conn :=
  match s.Multi c with
  | (some e, c1) => (.error e, c1)
  | (none, c1) =>
    let (_, c2) := runOps ops ⟨0⟩ c1
    s.Exec c2

/-- connection.Pipelined: run the callback's commands through a fresh
pipeline view, flush once, then drain exactly as many replies as were
counted. -/
def connection.Pipelined (_ : connection) (c : Conn) (ops : List BatchOp) :
    Except Err (List Reply) × Conn :=
  let (p, c1) := runOps ops ⟨0⟩ c
  match c1.flush with
  | (some e, c2) => (.error e, c2)
  | (none, c2) =>
    let (r, _, c3) := p.receiveAll c2
    (r, c3)

/-- connection.PipelinedDiscarding: run the callback's commands, flush, and
read nothing. -/
def connection.PipelinedDiscarding (_ : connection) (c : Conn) (ops : List BatchOp) :
    Option Err × Conn :=
  let (_, c1) := runOps ops ⟨0⟩ c
  c1.flush

/-- connection.ZRem (src/redis/connection.go lines 567-574): an empty member
list short-circuits to (0, nil) without touching the connection. -/
def connection.ZRem (s : connection) (c : Conn) (key : String) (members : List String) :
    Except Err Int × Conn :=
  if members = [] then (.ok 0, c)
  else
    let (r, c') := s.Do c ⟨"ZREM", .str key :: members.map .str⟩
    (redigoInt r, c')

/-- The error HMSet and the mature PFMerge synthesize for a non-OK status
(fmt.Errorf of src/redis/connection_test.go). -/
def errNotOK (result : String) : Err := "result is " ++ result ++ " rather than OK"

/-- The local validation error of HMSet with no pairs
(src/redis/connection_test.go lines 866-869). -/
def errHMSetNoPairs : Err := "redis: at least one key/value pair is required"

/-- connection.PFMerge as in src/redis/connection.go lines 599-605: on a
non-error, non-OK status reply it returns false together with the (nil)
error value, synthesizing nothing. -/
def connection.PFMerge (s : connection) (c : Conn) (mergedKey : String)
    (keysToMerge : List String) : (Bool × Option Err) × Conn :=
  let (r, c') := s.Do c ⟨"PFMERGE", .str mergedKey :: keysToMerge.map .str⟩
  match redigoString r with
  | .error e => ((false, some e), c')
  | .ok result => if result ≠ "OK" then ((false, none), c') else ((true, none), c')

/-- connection.PFMerge as in the mature variant (src/redis/connection_test.go
lines 1108-1117): a non-OK status reply synthesizes an error. -/
def connection.PFMergeMature (s : connection) (c : Conn) (mergedKey : String)
    (keysToMerge : List String) : (Bool × Option Err) × Conn :=
  let (r, c') := s.Do c ⟨"PFMERGE", .str mergedKey :: keysToMerge.map .str⟩
  match redigoString r with
  | .error e => ((false, some e), c')
  | .ok result =>
    if result ≠ "OK" then ((false, some (errNotOK result)), c')
    else ((true, none), c')

/-- connection.HMSet (src/redis/connection_test.go lines 866-879): rejects an
empty map locally, checks the status reply for the literal OK and
synthesizes an error otherwise. -/
def connection.HMSet (s : connection) (c : Conn) (key : String)
    (args : List (String × Arg)) : Option Err × Conn :=
  if args = [] then (some errHMSetNoPairs, c)
  else
    let (r, c') := s.Do c ⟨"HMSET", .str key :: mapToSlice args⟩
    match redigoString r with
    | .error e => (some e, c')
    | .ok result => if result ≠ "OK" then (some (errNotOK result), c') else (none, c')

/-- The credential cache of src/redis/pool.go: the set of hosts known not to
use authentication.  The mutex is irrelevant in this sequential model; the
map with true values is modelled as a duplicate-free list of hosts. -/
structure hosts where
  hs : List String
deriving DecidableEq

/-- hosts.Add: mark a host as not using auth. -/
def hosts.Add (m : hosts) (host : String) : hosts :=
  if host ∈ m.hs then m else ⟨host :: m.hs⟩

/-- hosts.Remove: evict a host from the cache. -/
def hosts.Remove (m : hosts) (host : String) : hosts :=
  ⟨m.hs.filter fun x => x != host⟩

/-- hosts.Get: is the host marked as not using auth. -/
def hosts.Get (m : hosts) (host : String) : Bool :=
  m.hs.contains host

/-- The slice of net/url.URL that generateConnection reads and writes: the
host and the user-info credential.  `user = none` models `url.User = nil`. -/
structure GenURL where
  host : String
  user : Option String
deriving DecidableEq

/-- generateConnection (src/redis/pool.go lines 391-410).  `dial` abstracts
redisurl.ConnectToURL, modelled from the spec's collaborator interface
`Connect(address) -> (handle, error)`; it is keyed by the only part of the
URL string the auth logic varies, namely whether the URL still carries a
credential.  The Go function assigns `url.User = nil` on the shared URL
before the no-auth attempt, so the recursive call and the caller observe the
stripped URL; the model therefore threads the URL through and returns it.
The Go recursion has no fuel; the model adds an explicit fuel parameter,
and every run of the Go code corresponds to a run with fuel at least 3. -/
def generateConnection (dial : Bool → Except Err Unit) :
    Nat → GenURL → hosts → Except Err Unit × GenURL × hosts
  | 0, url, cache => (.error errBlocked, url, cache)
  | fuel + 1, url, cache =>
    if cache.Get url.host then
      let url' : GenURL := { url with user := none }
      match dial url'.user.isSome with
      | .error e =>
        if e = redigoErrNoAuth then
          generateConnection dial fuel url' (cache.Remove url.host)
        else (.error e, url', cache)
      | .ok h => (.ok h, url', cache)
    else
      match dial url.user.isSome with
      | .error e =>
        if e = redigoErrSentAuth then
          generateConnection dial fuel url (cache.Add url.host)
        else (.error e, url, cache)
      | .ok h => (.ok h, url, cache)

/-- ErrPoolExhausted from src/redis/pool.go. -/
def ErrPoolExhausted : Err := "connection pool exhausted"

/-- Modelled from the spec: the external redigo pool primitive consumed by
src/redis/pool.go (spec sections 4.4 and 5).  `Get` never blocks: when the
open-connection ceiling MaxActive is non-zero and already reached it hands
back a connection whose Err() reports the exhaustion error; otherwise it
leases an idle or freshly dialled connection, whose Err() is the dial
error, if any. -/
structure redigoPool where
  maxActive : Nat
  active : Nat
  dialErr : Option Err

/-- Modelled from the spec: redigo pool.Get followed by the Err() liveness
check that src/redis/pool.go performs to force acquisition. -/
def redigoPool.get (p : redigoPool) : Option Err × redigoPool :=
  if p.maxActive ≠ 0 ∧ p.active ≥ p.maxActive then
    (some redigoExhaustedMsg, p)
  else
    match p.dialErr with
    | some e => (some e, p)
    | none => (none, { p with active := p.active + 1 })

/-- Modelled from the spec: closing a leased connection hands its slot back
to the redigo pool. -/
def redigoPool.put (p : redigoPool) : redigoPool :=
  { p with active := p.active - 1 }

/-- The jimmy pool (src/redis/pool.go, richer variant): the redigo pool plus
the password extracted from the URL at construction. -/
structure pool where
  p : redigoPool
  password : String

/-- pool.GetConnection (src/redis/pool.go lines 468-483): force acquisition
of an underlying connection; translate the redigo exhaustion error into the
distinguished ErrPoolExhausted and propagate any other error unchanged. -/
def pool.GetConnection (s : pool) : Except Err connection × pool :=
  let (e?, p') := s.p.get
  match e? with
  | some err =>
    if err = redigoExhaustedMsg then (.error ErrPoolExhausted, { s with p := p' })
    else (.error err, { s with p := p' })
  | none => (.ok { password := s.password }, { s with p := p' })

/-- pool.Return (src/redis/pool.go lines 485-491): nil is a no-op, otherwise
the connection is released back to the redigo pool. -/
def pool.Return (s : pool) (c : Option connection) : pool :=
  match c with
  | none => s
  | some _ => { s with p := s.p.put }

/-- pool.Do (src/redis/pool.go lines 493-504): lease a connection, run the
callback — whose result, whatever its type, is discarded — return the
connection, and report nil unless the lease itself failed. -/
def pool.Do {α : Type} (s : pool) (f : connection → α) : Option Err × pool :=
  match s.GetConnection with
  | (.error e, s') => (some e, s')
  | (.ok c, s') =>
    let _ := f c
    (none, s'.Return (some c))

/- Helper lemmas about the transport model. -/

/-- oracleReplies distributes over appended command lists. -/
theorem oracleReplies_append (f : Nat → Cmd → Except Err Reply) :
    ∀ (l1 l2 : List Cmd) (n : Nat),
      oracleReplies f n (l1 ++ l2) =
        oracleReplies f n l1 ++ oracleReplies f (n + l1.length) l2 := by
  intro l1
  induction l1 with
  | nil => intro l2 n; simp [oracleReplies]
  | cons cmd rest ih =>
    intro l2 n
    have h : n + (rest.length + 1) = n + 1 + rest.length := by omega
    simp [oracleReplies, ih, h]

/-- oracleReplies has the length of its command list. -/
theorem oracleReplies_length (f : Nat → Cmd → Except Err Reply) :
    ∀ (l : List Cmd) (n : Nat), (oracleReplies f n l).length = l.length := by
  intro l
  induction l with
  | nil => intro n; rfl
  | cons cmd rest ih => intro n; simp [oracleReplies, ih]

/-- Case-split form of a batch method: either no Send happens and the local
result is returned with both states untouched, or the Send fails and its
error is returned with both states untouched, or the command is appended to
the queue and the log and the counter is incremented. -/
theorem runBatch_send (s : sendOnlyConnection) (c : Conn) (op : BatchOp) :
    s.runBatch c op =
      match op.cmd? with
      | none => (op.localErr, s, c)
      | some cmd =>
        match c.sendFail cmd with
        | some e => (some e, s, c)
        | none => (none, ⟨s.counter + 1⟩,
            { c with pending := c.pending ++ [cmd], log := c.log ++ [cmd] }) := by
  rw [runBatch_eq]
  cases op.cmd? with
  | none => rfl
  | some cmd =>
    simp only [sendOnlyConnection.count, Conn.send]
    cases c.sendFail cmd <;> rfl

/-- runOps peels one call. -/
theorem runOps_cons (op : BatchOp) (ops : List BatchOp) (s : sendOnlyConnection) (c : Conn) :
    runOps (op :: ops) s c = runOps ops (s.runBatch c op).2.1 (s.runBatch c op).2.2 := rfl

/-- Running a callback when every Send succeeds: exactly the commands of the
calls that reach Send are appended, in call order, to the queue and the log,
and the counter grows by their number. -/
theorem runOps_clean :
    ∀ (ops : List BatchOp) (s : sendOnlyConnection) (c : Conn),
      (∀ x, c.sendFail x = none) →
      runOps ops s c =
        (⟨s.counter + (ops.filterMap BatchOp.cmd?).length⟩,
         { c with pending := c.pending ++ ops.filterMap BatchOp.cmd?,
                  log := c.log ++ ops.filterMap BatchOp.cmd? }) := by
  intro ops
  induction ops with
  | nil =>
    intro s c _
    simp [runOps]
  | cons op rest ih =>
    intro s c hsf
    rw [runOps_cons, runBatch_send]
    cases hc : op.cmd? with
    | none =>
      simp only
      rw [ih s c hsf]
      simp [List.filterMap_cons, hc]
    | some cmd =>
      simp only [hsf cmd]
      rw [ih ⟨s.counter + 1⟩
        { c with pending := c.pending ++ [cmd], log := c.log ++ [cmd] } (fun x => hsf x)]
      simp only [List.filterMap_cons, hc, List.length_cons, List.append_assoc,
        List.singleton_append]
      have h : s.counter + 1 + (List.filterMap BatchOp.cmd? rest).length =
          s.counter + ((List.filterMap BatchOp.cmd? rest).length + 1) := by omega
      rw [h]

/-- Draining a queue whose replies are all ok returns them all, in FIFO
order, consuming the queue and advancing the receive count by their
number. -/
theorem recvLoop_ok (sf : Cmd → Option Err) (ff : Option Err)
    (f : Nat → Cmd → Except Err Reply) :
    ∀ (cmds : List Cmd) (n : Nat) (lg : List Cmd) (rs : List Reply),
      oracleReplies f n cmds = rs.map .ok →
      recvLoop cmds.length ⟨sf, ff, f, cmds, n, lg⟩ =
        (.ok rs, ⟨sf, ff, f, [], n + rs.length, lg⟩) := by
  intro cmds
  induction cmds with
  | nil =>
    intro n lg rs h
    simp only [oracleReplies] at h
    cases rs with
    | nil => simp [recvLoop]
    | cons r rs' => simp at h
  | cons cmd rest ih =>
    intro n lg rs h
    cases rs with
    | nil => simp [oracleReplies] at h
    | cons r rs' =>
      simp only [oracleReplies, List.map_cons, List.cons.injEq] at h
      obtain ⟨h1, h2⟩ := h
      simp only [List.length_cons, recvLoop, Conn.receive, h1]
      rw [ih (n + 1) lg rs' h2]
      simp only [List.length_cons]
      have h3 : n + 1 + rs'.length = n + (rs'.length + 1) := by omega
      rw [h3]

/-- Draining a queue whose replies are some ok values followed by an error
stops at that first error, returning it after having consumed exactly the
corresponding receives. -/
theorem recvLoop_error (sf : Cmd → Option Err) (ff : Option Err)
    (f : Nat → Cmd → Except Err Reply) :
    ∀ (front : List Reply) (cmds : List Cmd) (n : Nat) (lg : List Cmd)
      (e : Err) (tail : List (Except Err Reply)),
      oracleReplies f n cmds = front.map .ok ++ .error e :: tail →
      recvLoop cmds.length ⟨sf, ff, f, cmds, n, lg⟩ =
        (.error e, ⟨sf, ff, f, cmds.drop (front.length + 1), n + front.length + 1, lg⟩) := by
  intro front
  induction front with
  | nil =>
    intro cmds n lg e tail h
    cases cmds with
    | nil => simp [oracleReplies] at h
    | cons cmd rest =>
      simp only [oracleReplies, List.map_nil, List.nil_append, List.cons.injEq] at h
      obtain ⟨h1, _⟩ := h
      simp [recvLoop, Conn.receive, h1]
  | cons r front' ih =>
    intro cmds n lg e tail h
    cases cmds with
    | nil => simp [oracleReplies] at h
    | cons cmd rest =>
      simp only [oracleReplies, List.map_cons, List.cons_append, List.cons.injEq] at h
      obtain ⟨h1, h2⟩ := h
      simp only [List.length_cons, recvLoop, Conn.receive, h1]
      rw [ih rest (n + 1) lg e tail h2]
      simp only [List.length_cons, List.drop_succ_cons]
      have h3 : n + 1 + front'.length + 1 = n + (front'.length + 1) + 1 := by omega
      rw [h3]

/-- redigo's Do reads the whole queue: the raw replies are exactly the
oracle's replies to the queued commands, in order. -/
theorem rawRecvN_all (sf : Cmd → Option Err) (ff : Option Err)
    (f : Nat → Cmd → Except Err Reply) :
    ∀ (cmds : List Cmd) (n : Nat) (lg : List Cmd),
      rawRecvN cmds.length ⟨sf, ff, f, cmds, n, lg⟩ =
        (oracleReplies f n cmds, ⟨sf, ff, f, [], n + cmds.length, lg⟩) := by
  intro cmds
  induction cmds with
  | nil => intro n lg; simp [rawRecvN, oracleReplies]
  | cons cmd rest ih =>
    intro n lg
    simp only [List.length_cons, rawRecvN, Conn.receive, oracleReplies]
    rw [ih (n + 1) lg]
    have h : n + 1 + rest.length = n + (rest.length + 1) := by omega
    rw [h]

/-- A list of ok replies followed by one more ok reply has no first error. -/
theorem firstErr_ok_concat (x : Reply) :
    ∀ (rs : List Reply), firstErr (rs.map .ok ++ [.ok x]) = none := by
  intro rs
  induction rs with
  | nil => rfl
  | cons r rs' ih => simpa [firstErr] using ih

/-- A list of ok replies followed by an error has that error as its first
error. -/
theorem firstErr_ok_append_error (e : Err) (rest : List (Except Err Reply)) :
    ∀ (rs : List Reply), firstErr (rs.map .ok ++ .error e :: rest) = some e := by
  intro rs
  induction rs with
  | nil => rfl
  | cons r rs' ih => simpa [firstErr] using ih

/-- redigo Do on a connection with nothing pending and a healthy transport:
the result is exactly the server's next reply to the command, the command is
logged, and one reply is consumed. -/
theorem redigoDo_sync (c : Conn) (cmd : Cmd)
    (hsf : c.sendFail cmd = none) (hff : c.flushFail = none) (hpend : c.pending = []) :
    c.redigoDo cmd =
      (c.srvReply c.ncvd cmd,
       { c with pending := [], ncvd := c.ncvd + 1, log := c.log ++ [cmd] }) := by
  obtain ⟨sf, ff, f, pend, n, lg⟩ := c
  simp only at hsf hff hpend
  subst hff hpend
  cases hr : f n cmd with
  | error e =>
    simp [Conn.redigoDo, Conn.send, hsf, Conn.flush, rawRecvN, Conn.receive, firstErr, hr]
  | ok v =>
    simp [Conn.redigoDo, Conn.send, hsf, Conn.flush, rawRecvN, Conn.receive, firstErr, hr]

/- Claim theorems. -/

/-- C10: ZRem called with an empty member list returns (0, nil) without
issuing any command, and the batch-executor ZRem with an empty member list
returns nil without calling Send and without incrementing the pending
counter: both leave the connection state (queue, log, receive count)
completely untouched. -/
theorem zrem_empty_noop (s : connection) (c : Conn) (key : String)
    (so : sendOnlyConnection) :
    s.ZRem c key [] = (.ok 0, c) ∧ so.runBatch c (.zRem key []) = (none, so, c) :=
  ⟨rfl, rfl⟩

/-- C8 counterexample: on the PFMerge of src/redis/connection.go (lines
599-605), a PFMERGE command that itself returns no error but whose status
reply is the string BAD — not OK — produces the result (false, nil): no
synthesized error is returned to the caller, contrary to the claim. -/
theorem pfmerge_non_ok_reply_no_error :
    (connection.PFMerge ⟨""⟩
        ⟨fun _ => none, none, fun _ _ => .ok (.str "BAD"), [], 0, []⟩
        "dest" ["a"]).1 = (false, none) := rfl

/-- C8 amended: when the command itself returns no error and the status
reply is a string other than OK, HMSet and the mature variant's PFMerge
(src/redis/connection_test.go) synthesize the `result is .. rather than OK`
error, while the PFMerge of src/redis/connection.go returns false together
with a nil error; no variant reports success for a non-OK reply. -/
theorem ok_check_variants (s : connection) (c : Conn) (result : String)
    (hres : result ≠ "OK")
    (hsf : ∀ x, c.sendFail x = none) (hff : c.flushFail = none) (hpend : c.pending = []) :
    (∀ mergedKey keysToMerge,
      c.srvReply c.ncvd ⟨"PFMERGE", .str mergedKey :: keysToMerge.map .str⟩ =
          .ok (.str result) →
      (s.PFMergeMature c mergedKey keysToMerge).1 = (false, some (errNotOK result)) ∧
      (s.PFMerge c mergedKey keysToMerge).1 = (false, none)) ∧
    (∀ key args, args ≠ [] →
      c.srvReply c.ncvd ⟨"HMSET", .str key :: mapToSlice args⟩ = .ok (.str result) →
      (s.HMSet c key args).1 = some (errNotOK result)) := by
  constructor
  · intro mergedKey keysToMerge hr
    have hdo : c.redigoDo ⟨"PFMERGE", .str mergedKey :: keysToMerge.map .str⟩ =
        (.ok (.str result),
         { c with pending := [], ncvd := c.ncvd + 1,
                  log := c.log ++ [⟨"PFMERGE", .str mergedKey :: keysToMerge.map .str⟩] }) := by
      rw [redigoDo_sync c _ (hsf _) hff hpend, hr]
    constructor
    · simp [connection.PFMergeMature, connection.Do, hdo, redigoString, hres]
    · simp [connection.PFMerge, connection.Do, hdo, redigoString, hres]
  · intro key args hargs hr
    have hdo : c.redigoDo ⟨"HMSET", .str key :: mapToSlice args⟩ =
        (.ok (.str result),
         { c with pending := [], ncvd := c.ncvd + 1,
                  log := c.log ++ [⟨"HMSET", .str key :: mapToSlice args⟩] }) := by
      rw [redigoDo_sync c _ (hsf _) hff hpend, hr]
    simp [connection.HMSet, hargs, connection.Do, hdo, redigoString, hres]

/-- C8 amended, witnessed at a concrete transport whose status reply is the
string BAD: the mature PFMerge and HMSet synthesize the error, the minimal
PFMerge reports (false, nil). -/
theorem ok_check_variants_witness :
    ("BAD" : String) ≠ "OK" ∧
    (connection.PFMergeMature ⟨""⟩
        ⟨fun _ => none, none, fun _ _ => .ok (.str "BAD"), [], 0, []⟩
        "dest" ["a"]).1 = (false, some (errNotOK "BAD")) ∧
    (connection.HMSet ⟨""⟩
        ⟨fun _ => none, none, fun _ _ => .ok (.str "BAD"), [], 0, []⟩
        "h" [("f", .str "v")]).1 = some (errNotOK "BAD") := by
  refine ⟨by decide, ?_, ?_⟩
  · exact ((ok_check_variants ⟨""⟩
      ⟨fun _ => none, none, fun _ _ => .ok (.str "BAD"), [], 0, []⟩ "BAD"
      (by decide) (fun _ => rfl) rfl rfl).1 "dest" ["a"] rfl).1
  · exact (ok_check_variants ⟨""⟩
      ⟨fun _ => none, none, fun _ _ => .ok (.str "BAD"), [], 0, []⟩ "BAD"
      (by decide) (fun _ => rfl) rfl rfl).2 "h" [("f", .str "v")] (by simp) rfl

/-- C6: GetConnection on a pool whose open-connection ceiling is non-zero
and already reached returns the distinguished ErrPoolExhausted, leaving the
pool unchanged; any other acquisition error is propagated unchanged; and
ErrPoolExhausted is a value distinct from the transport-level and
redigo-internal error values. -/
theorem getconnection_exhaustion (s : pool) :
    (s.p.maxActive ≠ 0 → s.p.maxActive ≤ s.p.active →
      s.GetConnection = (.error ErrPoolExhausted, s)) ∧
    (∀ e, ¬(s.p.maxActive ≠ 0 ∧ s.p.active ≥ s.p.maxActive) → s.p.dialErr = some e →
      e ≠ redigoExhaustedMsg → s.GetConnection = (.error e, s)) ∧
    (ErrPoolExhausted ≠ redigoExhaustedMsg ∧ ErrPoolExhausted ≠ redigoErrNoAuth ∧
      ErrPoolExhausted ≠ redigoErrSentAuth) := by
  refine ⟨?_, ?_, by decide, by decide, by decide⟩
  · intro h1 h2
    simp [pool.GetConnection, redigoPool.get, if_pos (And.intro h1 h2)]
  · intro e hceil hdial hne
    simp [pool.GetConnection, redigoPool.get, if_neg hceil, hdial, hne]

/-- C6 witness: a pool with ceiling 1 and one active lease is exhausted and
yields ErrPoolExhausted; a pool under its ceiling whose dial fails with a
connection-refused error propagates that error unchanged. -/
theorem getconnection_exhaustion_witness :
    pool.GetConnection ⟨⟨1, 1, none⟩, "pw"⟩ =
      (.error ErrPoolExhausted, ⟨⟨1, 1, none⟩, "pw"⟩) ∧
    pool.GetConnection ⟨⟨1, 0, some "connection refused"⟩, "pw"⟩ =
      (.error "connection refused", ⟨⟨1, 0, some "connection refused"⟩, "pw"⟩) := by
  constructor
  · exact (getconnection_exhaustion ⟨⟨1, 1, none⟩, "pw"⟩).1 (by decide) (by decide)
  · exact (getconnection_exhaustion ⟨⟨1, 0, some "connection refused"⟩, "pw"⟩).2.1
      "connection refused" (by simp) rfl (by decide)

/-- C9: the pool-level Do returns a non-nil error exactly when leasing the
connection fails, and with that same leasing error; once a connection is
leased it returns nil whatever the callback does — two arbitrary callbacks,
even of different result types, always yield the same error component, so
nothing that happens inside the callback is observable through Do. -/
theorem pool_do_error_iff_lease {α β : Type} (s : pool) (f : connection → α)
    (g : connection → β) :
    (∀ e, (s.Do f).1 = some e ↔ (s.GetConnection).1 = .error e) ∧
    ((s.Do f).1 = none ↔ ∃ c, (s.GetConnection).1 = .ok c) ∧
    (s.Do f).1 = (s.Do g).1 := by
  rcases hg : s.GetConnection with ⟨r, s2⟩
  cases r with
  | error e => simp [pool.Do, hg]
  | ok c => simp [pool.Do, hg]

/-- C9 witness: on an exhausted pool Do reports the lease error; on a
healthy pool it reports nil for a callback, and two different callbacks
agree. -/
theorem pool_do_error_iff_lease_witness :
    ((pool.Do ⟨⟨1, 1, none⟩, ""⟩ (fun _ => (0 : Nat))).1 = some ErrPoolExhausted ↔
      (pool.GetConnection ⟨⟨1, 1, none⟩, ""⟩).1 = .error ErrPoolExhausted) ∧
    (pool.Do ⟨⟨0, 0, none⟩, ""⟩ (fun _ => (0 : Nat))).1 =
      (pool.Do ⟨⟨0, 0, none⟩, ""⟩ (fun _ => "ignored")).1 := by
  constructor
  · exact (pool_do_error_iff_lease ⟨⟨1, 1, none⟩, ""⟩ (fun _ => (0 : Nat))
      (fun _ => (0 : Nat))).1 ErrPoolExhausted
  · exact (pool_do_error_iff_lease ⟨⟨0, 0, none⟩, ""⟩ (fun _ => (0 : Nat))
      (fun _ => "ignored")).2.2

/-- The connect oracle of a server that requires authentication and accepts
the URL's credential: dialling with the password succeeds, dialling without
it fails with the NOAUTH error. -/
def authRequiredDial : Bool → Except Err Unit :=
  fun withPassword => if withPassword then .ok () else .error redigoErrNoAuth

/-- C7, code evaluated at the failing input: the host is cached as not using
auth, the URL carries the correct password, and the server requires it.
generateConnection strips the user info from the shared URL in place,
connects without the password, sees the NOAUTH error and evicts the host —
but the retry still dials without the password (the URL mutation is never
undone), so the whole call fails with the NOAUTH error and the returned URL
has lost its credential; a dial with the password would have succeeded, as
the second conjunct records. -/
theorem generateconnection_drops_password :
    generateConnection authRequiredDial 4 ⟨"h:6379", some "secret"⟩ ⟨["h:6379"]⟩ =
      (.error redigoErrNoAuth, ⟨"h:6379", none⟩, ⟨[]⟩) ∧
    authRequiredDial true = .ok () := ⟨rfl, rfl⟩

/-- C1: for a sequence of batch commands issued through a pipeline all of
whose sends succeed, the counter equals the number N of commands sent; when
the server replies ok to each, receiveAll performs exactly N receives and
returns exactly the N replies in the FIFO order the commands were sent,
then resets the counter to zero; for N = 0 (in particular an empty
callback) it returns the absent result with the connection untouched — no
receive happens. -/
theorem pipeline_drain_fifo (ops : List BatchOp) (c : Conn) (rs : List Reply)
    (hsf : ∀ x, c.sendFail x = none) (hpend : c.pending = [])
    (hok : (runOps ops ⟨0⟩ c).2.pendingReplies = rs.map .ok) :
    (runOps ops ⟨0⟩ c).1.counter = rs.length ∧
    rs.length = (ops.filterMap BatchOp.cmd?).length ∧
    (runOps ops ⟨0⟩ c).1.receiveAll (runOps ops ⟨0⟩ c).2 =
      (.ok rs, ⟨0⟩,
       { c with pending := [], ncvd := c.ncvd + rs.length,
                log := c.log ++ ops.filterMap BatchOp.cmd? }) := by
  obtain ⟨sf, ff, f, pend, n, lg⟩ := c
  simp only at hsf hpend
  subst hpend
  rw [runOps_clean ops ⟨0⟩ _ hsf] at hok ⊢
  simp only [Conn.pendingReplies, List.nil_append, Nat.zero_add] at hok ⊢
  have hlen : rs.length = (ops.filterMap BatchOp.cmd?).length := by
    have h := oracleReplies_length f (ops.filterMap BatchOp.cmd?) n
    rw [hok] at h
    simpa using h
  refine ⟨hlen.symm, hlen, ?_⟩
  by_cases hfm : ops.filterMap BatchOp.cmd? = []
  · have hrs : rs = [] := by
      rw [hfm] at hlen
      exact List.length_eq_zero.mp (by simpa using hlen)
    subst hrs
    simp [sendOnlyConnection.receiveAll, hfm]
  · have hne : (ops.filterMap BatchOp.cmd?).length ≠ 0 := by
      simpa [List.length_eq_zero] using hfm
    simp only [sendOnlyConnection.receiveAll, if_neg hne]
    rw [recvLoop_ok sf ff f (ops.filterMap BatchOp.cmd?) n (lg ++ ops.filterMap BatchOp.cmd?)
      rs hok]

/-- C1 witness: two commands pipelined against a server answering with the
reply index give both replies in send order with the counter reset; zero
commands drain to the absent result with nothing consumed. -/
theorem pipeline_drain_fifo_witness :
    (runOps [.set "a" "1", .get "a"] ⟨0⟩
        ⟨fun _ => none, none, fun k _ => .ok (.int k), [], 0, []⟩).1.receiveAll
      (runOps [.set "a" "1", .get "a"] ⟨0⟩
        ⟨fun _ => none, none, fun k _ => .ok (.int k), [], 0, []⟩).2 =
      (.ok [.int 0, .int 1], ⟨0⟩,
       ⟨fun _ => none, none, fun k _ => .ok (.int k), [],  2,
        [⟨"SET", [.str "a", .str "1"]⟩, ⟨"GET", [.str "a"]⟩]⟩) ∧
    (runOps [] ⟨0⟩ ⟨fun _ => none, none, fun k _ => .ok (.int k), [], 0, []⟩).1.receiveAll
      (runOps [] ⟨0⟩ ⟨fun _ => none, none, fun k _ => .ok (.int k), [], 0, []⟩).2 =
      (.ok [], ⟨0⟩, ⟨fun _ => none, none, fun k _ => .ok (.int k), [], 0, []⟩) := by
  constructor
  · exact (pipeline_drain_fifo [.set "a" "1", .get "a"]
      ⟨fun _ => none, none, fun k _ => .ok (.int k), [], 0, []⟩
      [.int 0, .int 1] (fun _ => rfl) rfl rfl).2.2
  · exact (pipeline_drain_fifo []
      ⟨fun _ => none, none, fun k _ => .ok (.int k), [], 0, []⟩
      [] (fun _ => rfl) rfl rfl).2.2

/-- C3: a batch command method increments the pending counter by exactly one
iff its underlying Send succeeds; a Send failure returns the send error with
the counter and the connection untouched; a call that never reaches Send —
in particular the zero-field HMGet, which fails local validation with an
error — leaves both untouched, so a later drain reads no reply for it. -/
theorem batch_count_iff_send (op : BatchOp) (s : sendOnlyConnection) (c : Conn) :
    ((s.runBatch c op).2.1.counter = s.counter + 1 ↔
      ∃ cmd, op.cmd? = some cmd ∧ c.sendFail cmd = none) ∧
    (∀ cmd e, op.cmd? = some cmd → c.sendFail cmd = some e →
      s.runBatch c op = (some e, s, c)) ∧
    (op.cmd? = none → s.runBatch c op = (op.localErr, s, c)) ∧
    (∀ key, BatchOp.cmd? (.hMGet key []) = none ∧
      BatchOp.localErr (.hMGet key []) = some errHMGetNoFields) := by
  refine ⟨?_, ?_, ?_, fun key => ⟨rfl, rfl⟩⟩
  · rcases hc : op.cmd? with _ | cmd
    · simp [runBatch_send, hc]
    · rcases hs : c.sendFail cmd with _ | e
      · simp [runBatch_send, hc, hs]
      · simp [runBatch_send, hc, hs]
  · intro cmd e hcmd hfail
    simp [runBatch_send, hcmd, hfail]
  · intro hnone
    simp [runBatch_send, hnone]

/-- C3 witness: a GET whose Send succeeds counts one pending reply; a GET
whose Send fails returns the send error and counts nothing; the zero-field
HMGet returns its validation error, touching neither counter nor
connection. -/
theorem batch_count_iff_send_witness :
    (sendOnlyConnection.runBatch ⟨0⟩
        ⟨fun _ => none, none, fun _ _ => .ok .nil, [], 0, []⟩ (.get "k")).2.1.counter = 1 ∧
    sendOnlyConnection.runBatch ⟨0⟩
        ⟨fun _ => some "enc", none, fun _ _ => .ok .nil, [], 0, []⟩ (.get "k") =
      (some "enc", ⟨0⟩, ⟨fun _ => some "enc", none, fun _ _ => .ok .nil, [], 0, []⟩) ∧
    sendOnlyConnection.runBatch ⟨0⟩
        ⟨fun _ => none, none, fun _ _ => .ok .nil, [], 0, []⟩ (.hMGet "h" []) =
      (some errHMGetNoFields, ⟨0⟩, ⟨fun _ => none, none, fun _ _ => .ok .nil, [], 0, []⟩) := by
  refine ⟨?_, ?_, ?_⟩
  · exact (batch_count_iff_send (.get "k") ⟨0⟩
      ⟨fun _ => none, none, fun _ _ => .ok .nil, [], 0, []⟩).1.mpr
      ⟨⟨"GET", [.str "k"]⟩, rfl, rfl⟩
  · exact (batch_count_iff_send (.get "k") ⟨0⟩
      ⟨fun _ => some "enc", none, fun _ _ => .ok .nil, [], 0, []⟩).2.1
      ⟨"GET", [.str "k"]⟩ "enc" rfl rfl
  · exact (batch_count_iff_send (.hMGet "h" []) ⟨0⟩
      ⟨fun _ => none, none, fun _ _ => .ok .nil, [], 0, []⟩).2.2.1 rfl

/-- C5: draining a non-zero pending count when the i-th receive fails stops
at that first receive error, returning the error and no replies at all —
the replies already read are discarded, the counter is left as it was, and
exactly i receives have been consumed. -/
theorem drain_stops_at_first_error (s : sendOnlyConnection) (c : Conn)
    (front : List Reply) (e : Err) (tail : List (Except Err Reply))
    (hcount : s.counter = c.pending.length)
    (hrep : c.pendingReplies = front.map .ok ++ .error e :: tail) :
    s.receiveAll c =
      (.error e, s,
       { c with pending := c.pending.drop (front.length + 1),
                ncvd := c.ncvd + front.length + 1 }) := by
  obtain ⟨sf, ff, f, pend, n, lg⟩ := c
  obtain ⟨cnt⟩ := s
  simp only [Conn.pendingReplies] at hrep hcount ⊢
  subst hcount
  have hne : pend ≠ [] := by
    intro h
    subst h
    simp [oracleReplies] at hrep
  have hne' : pend.length ≠ 0 := by simpa [List.length_eq_zero] using hne
  simp only [sendOnlyConnection.receiveAll, if_neg hne']
  rw [recvLoop_error sf ff f front pend n lg e tail hrep]

/-- C5 witness: two pending commands, the first reply ok and the second a
transport error: the drain returns that error with no replies, the counter
still reads two, and both receives were consumed. -/
theorem drain_stops_at_first_error_witness :
    sendOnlyConnection.receiveAll ⟨2⟩
      ⟨fun _ => none, none, fun k _ => if k = 0 then .ok (.str "v") else .error "boom",
       [⟨"GET", [.str "a"]⟩, ⟨"GET", [.str "b"]⟩], 0, []⟩ =
      (.error "boom", ⟨2⟩,
       ⟨fun _ => none, none, fun k _ => if k = 0 then .ok (.str "v") else .error "boom",
        [], 2, []⟩) :=
  drain_stops_at_first_error ⟨2⟩
    ⟨fun _ => none, none, fun k _ => if k = 0 then .ok (.str "v") else .error "boom",
     [⟨"GET", [.str "a"]⟩, ⟨"GET", [.str "b"]⟩], 0, []⟩
    [.str "v"] "boom" [] rfl rfl

/-- C2: when a synchronous Do receives the NOAUTH error: with no configured
credential the original error is returned directly (only the command itself
was issued); with a non-empty credential exactly one AUTH carrying that
credential is issued — if the AUTH fails, its failure is returned and the
command is never retried, and if the AUTH succeeds, the original command is
retried exactly once and that retry's result is returned.  The log records
precisely the commands issued in each case. -/
theorem do_auth_retry (s : connection) (c : Conn) (cmd : Cmd)
    (hsf : ∀ x, c.sendFail x = none) (hff : c.flushFail = none) (hpend : c.pending = [])
    (hnoauth : c.srvReply c.ncvd cmd = .error redigoErrNoAuth) :
    (s.password = "" →
      s.Do c cmd = (.error redigoErrNoAuth,
        { c with pending := [], ncvd := c.ncvd + 1, log := c.log ++ [cmd] })) ∧
    (s.password ≠ "" →
      (∀ ea, c.srvReply (c.ncvd + 1) (Cmd.mk "AUTH" [.str s.password]) = .error ea →
        s.Do c cmd = (.error ea,
          { c with pending := [], ncvd := c.ncvd + 1 + 1,
                   log := c.log ++ [cmd, Cmd.mk "AUTH" [.str s.password]] })) ∧
      (∀ v, c.srvReply (c.ncvd + 1) (Cmd.mk "AUTH" [.str s.password]) = .ok v →
        s.Do c cmd = (c.srvReply (c.ncvd + 1 + 1) cmd,
          { c with pending := [], ncvd := c.ncvd + 1 + 1 + 1,
                   log := c.log ++ [cmd, Cmd.mk "AUTH" [.str s.password], cmd] }))) := by
  obtain ⟨sf, ff, f, pend, n, lg⟩ := c
  simp only at hsf hff hpend hnoauth ⊢
  subst hff hpend
  have d1 : Conn.redigoDo ⟨sf, none, f, [], n, lg⟩ cmd =
      (.error redigoErrNoAuth, ⟨sf, none, f, [], n + 1, lg ++ [cmd]⟩) := by
    rw [redigoDo_sync ⟨sf, none, f, [], n, lg⟩ cmd (hsf cmd) rfl rfl]
    simp [hnoauth]
  constructor
  · intro hpw
    simp [connection.Do, d1, hpw]
  · intro hpw
    constructor
    · intro ea hea
      have d2 : Conn.redigoDo ⟨sf, none, f, [], n + 1, lg ++ [cmd]⟩
          (Cmd.mk "AUTH" [.str s.password]) =
          (.error ea,
           ⟨sf, none, f, [], n + 1 + 1, lg ++ [cmd, Cmd.mk "AUTH" [.str s.password]]⟩) := by
        rw [redigoDo_sync ⟨sf, none, f, [], n + 1, lg ++ [cmd]⟩ _ (hsf _) rfl rfl]
        simp [hea]
      simp [connection.Do, d1, d2, hpw]
    · intro v hv
      have d2 : Conn.redigoDo ⟨sf, none, f, [], n + 1, lg ++ [cmd]⟩
          (Cmd.mk "AUTH" [.str s.password]) =
          (.ok v,
           ⟨sf, none, f, [], n + 1 + 1, lg ++ [cmd, Cmd.mk "AUTH" [.str s.password]]⟩) := by
        rw [redigoDo_sync ⟨sf, none, f, [], n + 1, lg ++ [cmd]⟩ _ (hsf _) rfl rfl]
        simp [hv]
      have d3 : Conn.redigoDo
          ⟨sf, none, f, [], n + 1 + 1, lg ++ [cmd, Cmd.mk "AUTH" [.str s.password]]⟩ cmd =
          (f (n + 1 + 1) cmd,
           ⟨sf, none, f, [], n + 1 + 1 + 1,
            lg ++ [cmd, Cmd.mk "AUTH" [.str s.password], cmd]⟩) := by
        rw [redigoDo_sync _ cmd (hsf cmd) rfl rfl]
        simp
      simp [connection.Do, d1, d2, d3, hpw]

/-- C2 witness: against a server that answers the command with NOAUTH, then
accepts AUTH pw, then answers PONG: Do issues PING, AUTH pw, PING — exactly
one AUTH and exactly one retry — and returns the retry's PONG. -/
theorem do_auth_retry_witness :
    connection.Do ⟨"pw"⟩
      ⟨fun _ => none, none,
       (fun k _ => if k = 0 then .error redigoErrNoAuth
          else if k = 1 then .ok (.str "OK") else .ok (.str "PONG")),
       [], 0, []⟩ (Cmd.mk "PING" []) =
      (.ok (.str "PONG"),
       ⟨fun _ => none, none,
        (fun k _ => if k = 0 then .error redigoErrNoAuth
           else if k = 1 then .ok (.str "OK") else .ok (.str "PONG")),
        [], 3, [Cmd.mk "PING" [], Cmd.mk "AUTH" [.str "pw"], Cmd.mk "PING" []]⟩) := by
  have h := ((do_auth_retry ⟨"pw"⟩
    ⟨fun _ => none, none,
     (fun k _ => if k = 0 then .error redigoErrNoAuth
        else if k = 1 then .ok (.str "OK") else .ok (.str "PONG")),
     [], 0, []⟩ (Cmd.mk "PING" []) (fun _ => rfl) rfl rfl rfl).2
    (by decide)).2 (.str "OK") rfl
  simpa using h

/-- C4: Transaction sends MULTI, then exactly the callback's commands in
order, then EXEC — the connection log grows by precisely that sequence —
and, when the server accepts them all, returns EXEC's reply array as the
result; if the MULTI send fails, that error is returned and nothing is
issued. -/
theorem transaction_wraps (s : connection) (ops : List BatchOp) :
    (∀ (c : Conn) (qs rs : List Reply),
      (∀ x, c.sendFail x = none) → c.flushFail = none → c.pending = [] →
      oracleReplies c.srvReply c.ncvd (Cmd.mk "MULTI" [] :: ops.filterMap BatchOp.cmd?) =
        qs.map .ok →
      c.srvReply (c.ncvd + qs.length) (Cmd.mk "EXEC" []) = .ok (.arr rs) →
      s.Transaction c ops =
        (.ok rs,
         { c with pending := [], ncvd := c.ncvd + qs.length + 1,
                  log := c.log ++
                    Cmd.mk "MULTI" [] :: (ops.filterMap BatchOp.cmd? ++ [Cmd.mk "EXEC" []]) })) ∧
    (∀ (c : Conn) (qs : List Reply) (e : Err),
      (∀ x, c.sendFail x = none) → c.flushFail = none → c.pending = [] →
      oracleReplies c.srvReply c.ncvd (Cmd.mk "MULTI" [] :: ops.filterMap BatchOp.cmd?) =
        qs.map .ok →
      c.srvReply (c.ncvd + qs.length) (Cmd.mk "EXEC" []) = .error e →
      e ≠ redigoErrNoAuth →
      s.Transaction c ops =
        (.error e,
         { c with pending := [], ncvd := c.ncvd + qs.length + 1,
                  log := c.log ++
                    Cmd.mk "MULTI" [] :: (ops.filterMap BatchOp.cmd? ++ [Cmd.mk "EXEC" []]) })) ∧
    (∀ (c : Conn) (e : Err), c.sendFail (Cmd.mk "MULTI" []) = some e →
      s.Transaction c ops = (.error e, c)) := by
  refine ⟨?_, ?_, ?_⟩
  · intro c qs rs hsf hff hpend hq hexec
    obtain ⟨sf, ff, f, pend, n, lg⟩ := c
    simp only at hsf hff hpend hq hexec ⊢
    subst hff hpend
    have hqlen : qs.length = (ops.filterMap BatchOp.cmd?).length + 1 := by
      have h := oracleReplies_length f (Cmd.mk "MULTI" [] :: ops.filterMap BatchOp.cmd?) n
      rw [hq] at h
      simp at h
      omega
    simp only [connection.Transaction, connection.Multi, connection.Send, Conn.send,
      hsf (Cmd.mk "MULTI" []), List.nil_append]
    rw [runOps_clean ops ⟨0⟩
      ⟨sf, none, f, [Cmd.mk "MULTI" []], n, lg ++ [Cmd.mk "MULTI" []]⟩ hsf]
    have dExec : Conn.redigoDo
        ⟨sf, none, f, [Cmd.mk "MULTI" []] ++ ops.filterMap BatchOp.cmd?, n,
         (lg ++ [Cmd.mk "MULTI" []]) ++ ops.filterMap BatchOp.cmd?⟩ (Cmd.mk "EXEC" []) =
        (.ok (.arr rs),
         ⟨sf, none, f, [], n + (qs.length + 1),
          (((lg ++ [Cmd.mk "MULTI" []]) ++ ops.filterMap BatchOp.cmd?) ++
            [Cmd.mk "EXEC" []])⟩) := by
      simp only [Conn.redigoDo, Conn.send, hsf (Cmd.mk "EXEC" []), Conn.flush]
      rw [rawRecvN_all sf none f
        (([Cmd.mk "MULTI" []] ++ ops.filterMap BatchOp.cmd?) ++ [Cmd.mk "EXEC" []]) n
        (((lg ++ [Cmd.mk "MULTI" []]) ++ ops.filterMap BatchOp.cmd?) ++ [Cmd.mk "EXEC" []])]
      rw [oracleReplies_append f ([Cmd.mk "MULTI" []] ++ ops.filterMap BatchOp.cmd?)
        [Cmd.mk "EXEC" []] n]
      have hlen1 : ([Cmd.mk "MULTI" []] ++ ops.filterMap BatchOp.cmd?).length = qs.length := by
        simp [hqlen]
      rw [hlen1]
      have hq' : oracleReplies f n ([Cmd.mk "MULTI" []] ++ ops.filterMap BatchOp.cmd?) =
          qs.map .ok := by
        simpa [List.singleton_append] using hq
      rw [hq']
      simp only [oracleReplies, hexec]
      rw [firstErr_ok_concat (.arr rs) qs]
      rw [List.getLast?_concat]
      have hlen2 : (([Cmd.mk "MULTI" []] ++ ops.filterMap BatchOp.cmd?) ++
          [Cmd.mk "EXEC" []]).length = qs.length + 1 := by
        simp [hqlen]
      rw [hlen2]
    simp only [connection.Exec, connection.Do, dExec]
    simp [redigoValues, List.append_assoc]
    omega
  · intro c qs e hsf hff hpend hq hexec hne
    obtain ⟨sf, ff, f, pend, n, lg⟩ := c
    simp only at hsf hff hpend hq hexec ⊢
    subst hff hpend
    have hqlen : qs.length = (ops.filterMap BatchOp.cmd?).length + 1 := by
      have h := oracleReplies_length f (Cmd.mk "MULTI" [] :: ops.filterMap BatchOp.cmd?) n
      rw [hq] at h
      simp at h
      omega
    simp only [connection.Transaction, connection.Multi, connection.Send, Conn.send,
      hsf (Cmd.mk "MULTI" []), List.nil_append]
    rw [runOps_clean ops ⟨0⟩
      ⟨sf, none, f, [Cmd.mk "MULTI" []], n, lg ++ [Cmd.mk "MULTI" []]⟩ hsf]
    have dExec : Conn.redigoDo
        ⟨sf, none, f, [Cmd.mk "MULTI" []] ++ ops.filterMap BatchOp.cmd?, n,
         (lg ++ [Cmd.mk "MULTI" []]) ++ ops.filterMap BatchOp.cmd?⟩ (Cmd.mk "EXEC" []) =
        (.error e,
         ⟨sf, none, f, [], n + (qs.length + 1),
          (((lg ++ [Cmd.mk "MULTI" []]) ++ ops.filterMap BatchOp.cmd?) ++
            [Cmd.mk "EXEC" []])⟩) := by
      simp only [Conn.redigoDo, Conn.send, hsf (Cmd.mk "EXEC" []), Conn.flush]
      rw [rawRecvN_all sf none f
        (([Cmd.mk "MULTI" []] ++ ops.filterMap BatchOp.cmd?) ++ [Cmd.mk "EXEC" []]) n
        (((lg ++ [Cmd.mk "MULTI" []]) ++ ops.filterMap BatchOp.cmd?) ++ [Cmd.mk "EXEC" []])]
      rw [oracleReplies_append f ([Cmd.mk "MULTI" []] ++ ops.filterMap BatchOp.cmd?)
        [Cmd.mk "EXEC" []] n]
      have hlen1 : ([Cmd.mk "MULTI" []] ++ ops.filterMap BatchOp.cmd?).length = qs.length := by
        simp [hqlen]
      rw [hlen1]
      have hq' : oracleReplies f n ([Cmd.mk "MULTI" []] ++ ops.filterMap BatchOp.cmd?) =
          qs.map .ok := by
        simpa [List.singleton_append] using hq
      rw [hq']
      simp only [oracleReplies, hexec]
      rw [firstErr_ok_append_error e [] qs]
      have hlen2 : (([Cmd.mk "MULTI" []] ++ ops.filterMap BatchOp.cmd?) ++
          [Cmd.mk "EXEC" []]).length = qs.length + 1 := by
        simp [hqlen]
      rw [hlen2]
    simp only [connection.Exec, connection.Do, dExec]
    simp [redigoValues, List.append_assoc, hne]
    omega
  · intro c e hfail
    simp [connection.Transaction, connection.Multi, connection.Send, Conn.send, hfail]

/-- C4 witness: a transaction with a single SET against a server replying
OK to MULTI, QUEUED to the SET and the array of results to EXEC: the log
shows MULTI, SET, EXEC and the result is EXEC's array. -/
theorem transaction_wraps_witness :
    connection.Transaction ⟨""⟩
      ⟨fun _ => none, none,
       (fun k _ => if k = 0 then .ok (.str "OK")
          else if k = 1 then .ok (.str "QUEUED") else .ok (.arr [.str "OK"])),
       [], 0, []⟩ [.set "k" "v"] =
      (.ok [.str "OK"],
       ⟨fun _ => none, none,
        (fun k _ => if k = 0 then .ok (.str "OK")
           else if k = 1 then .ok (.str "QUEUED") else .ok (.arr [.str "OK"])),
        [], 3, [Cmd.mk "MULTI" [], Cmd.mk "SET" [.str "k", .str "v"], Cmd.mk "EXEC" []]⟩) := by
  have h := (transaction_wraps ⟨""⟩ [.set "k" "v"]).1
    ⟨fun _ => none, none,
     (fun k _ => if k = 0 then .ok (.str "OK")
        else if k = 1 then .ok (.str "QUEUED") else .ok (.arr [.str "OK"])),
     [], 0, []⟩ [.str "OK", .str "QUEUED"] [.str "OK"]
    (fun _ => rfl) rfl rfl rfl rfl
  simpa using h

end Jimmy
